import Mathlib

/-!
Verification of the C shims in swift-file-system
(Sources/CFileSystemShims/CFileSystemShims.c).

The repository exposes two Linux syscalls to a higher-level library:

* `atomicfilewrite_renameat2_noreplace` wraps one call of
  `renameat2(AT_FDCWD, from, AT_FDCWD, to, RENAME_NOREPLACE)`; on failure it
  stores `errno` into `*out_errno` and returns `-1`, on success it stores `0`
  and returns `0`.  On architectures where the syscall number is unknown the
  whole body is replaced by `*out_errno = ENOSYS; return -1;`.

* `atomicfilewrite_getrandom` is a direct pass-through of the `getrandom`
  syscall; on architectures without the syscall it sets `errno = ENOSYS` and
  returns `-1`.

The embedding below models the filesystem as an association list from path
strings to byte contents, gives the kernel semantics of the
`renameat2`/`RENAME_NOREPLACE` syscall (source lookup fails with `ENOENT`
before the `RENAME_NOREPLACE` existence check fails with `EEXIST`, matching
the order in the Linux kernel), and translates the two C functions over that
model.  Architecture-conditional compilation (`#if SYS_renameat2 > 0`) is
modelled by a boolean parameter selecting the branch that the preprocessor
would keep.
-/

/-- Linux error number ENOENT (no such file or directory). -/
def ENOENT : Int := 2

/-- Linux error number EEXIST (file exists). -/
def EEXIST : Int := 17

/-- Linux error number ENOSYS (function not implemented). -/
def ENOSYS : Int := 38

/-- A filesystem snapshot: an association list from paths to byte contents.
The first binding of a path is its content. -/
abbrev FS := List (String × List Nat)

/-- Content of path `p` in filesystem `fs`, if the path exists. -/
def fsFind : FS → String → Option (List Nat)
  | [], _ => none
  | (q, c) :: rest, p => if q = p then some c else fsFind rest p

/-- Filesystem `fs` with every binding of path `p` removed. -/
def fsRemove : FS → String → FS
  | [], _ => []
  | (q, c) :: rest, p =>
    if q = p then fsRemove rest p else (q, c) :: fsRemove rest p

/-- Result of a raw syscall: the return value, the value of `errno` it
establishes on failure, and the filesystem after the call. -/
structure SysRes where
  ret : Int
  err : Int
  fs : FS
deriving DecidableEq

/-- Kernel semantics of `renameat2(AT_FDCWD, f, AT_FDCWD, t, RENAME_NOREPLACE)`
on filesystem `fs`.  The kernel resolves the source first (`ENOENT` when it is
absent), then the `RENAME_NOREPLACE` flag rejects an existing destination with
`EEXIST`; otherwise the file moves atomically in this single step. -/
def renameat2_noreplace_syscall (fs : FS) (f t : String) : SysRes :=
  match fsFind fs f with
  | none => ⟨-1, ENOENT, fs⟩
  | some c =>
    match fsFind fs t with
    | some _ => ⟨-1, EEXIST, fs⟩
    | none => ⟨0, 0, (t, c) :: fsRemove fs f⟩

/-- Outcome of the rename shim as seen by the caller: the C return value, the
value stored through `out_errno`, and the filesystem after the call. -/
structure RenameOut where
  ret : Int
  out_errno : Int
  fs : FS
deriving DecidableEq

/-- Embedding of `atomicfilewrite_renameat2_noreplace` from
CFileSystemShims.c.  `hasSyscall` selects the preprocessor branch: `true` for
`#if SYS_renameat2 > 0` (the syscall number is known for this architecture),
`false` for the `#else` stub.  In the supported branch the body issues the one
syscall; if the result is `-1` it stores `errno` into `*out_errno` and returns
`-1`, otherwise it stores `0` and returns `0`.  The stub branch stores
`ENOSYS` and returns `-1` without touching the filesystem. -/
def atomicfilewrite_renameat2_noreplace (hasSyscall : Bool) (fs : FS)
    (f t : String) : RenameOut :=
  if hasSyscall then
    let r := renameat2_noreplace_syscall fs f t
    if r.ret = -1 then ⟨-1, r.err, r.fs⟩ else ⟨0, 0, r.fs⟩
  else ⟨-1, ENOSYS, fs⟩

/-- Filesystem syscalls a publish implementation could issue: the atomic
no-replace rename, a bare existence check (`stat`/`access`), or a plain
replacing rename. -/
inductive FsOp where
  | renameNoreplace : String → String → FsOp
  | statExists : String → FsOp
  | plainRename : String → String → FsOp
deriving DecidableEq

/-- The sequence of filesystem syscalls the body of
`atomicfilewrite_renameat2_noreplace` issues, read off the source: the
supported branch performs exactly the one `renameat2` syscall and the stub
branch performs none. -/
def renameat2_noreplace_ops (hasSyscall : Bool) (f t : String) : List FsOp :=
  if hasSyscall then [FsOp.renameNoreplace f t] else []

/-- Tagged publish outcome from the spec data model (section 3). -/
inductive PublishResult where
  | success : PublishResult
  | alreadyExists : PublishResult
  | unsupported : PublishResult
  | ioFailure : Int → PublishResult
deriving DecidableEq

/-- Definition written from the words of the spec (section 4.2 Algorithm):
issue a single "rename if destination absent" system call; report
`Unsupported` when the atomic primitive is unavailable, `AlreadyExists` when
the destination exists, `IOFailure(code)` for any other failure, and success
otherwise.  This is the reference the implementation is compared against for
the refinement claim. -/
def spec_AtomicPublisher (primitiveAvailable : Bool) (fs : FS)
    (src dst : String) : PublishResult × FS :=
  if primitiveAvailable then
    let r := renameat2_noreplace_syscall fs src dst
    if r.ret = 0 then (PublishResult.success, r.fs)
    else if r.err = EEXIST then (PublishResult.alreadyExists, fs)
    else (PublishResult.ioFailure r.err, fs)
  else (PublishResult.unsupported, fs)

/-- Abstraction map from the shim interface to the spec publish outcome: `0`
means success, `EEXIST` in `*out_errno` means the destination existed,
`ENOSYS` means the primitive is unsupported, any other code is an I/O
failure. -/
def publishResultOfShim (hasSyscall : Bool) (fs : FS) (f t : String) :
    PublishResult × FS :=
  let r := atomicfilewrite_renameat2_noreplace hasSyscall fs f t
  if r.ret = 0 then (PublishResult.success, r.fs)
  else if r.out_errno = EEXIST then (PublishResult.alreadyExists, r.fs)
  else if r.out_errno = ENOSYS then (PublishResult.unsupported, r.fs)
  else (PublishResult.ioFailure r.out_errno, r.fs)

/-- One kernel response to a `getrandom(buffer, length, flags)` request:
either the syscall fails with an error number, or it supplies `bs` random
bytes, where the kernel may supply fewer bytes than requested (a short
read). -/
inductive GetrandomOutcome where
  | failure : Int → GetrandomOutcome
  | bytes : List Nat → GetrandomOutcome
deriving DecidableEq

/-- Outcome of the getrandom shim as seen by the caller: the C return value,
the value of `errno` after the call (meaningful on failure), and the content
of the caller buffer after the call. -/
structure GetrandomRes where
  ret : Int
  errno : Int
  buffer : List Nat
deriving DecidableEq

/-- Embedding of `atomicfilewrite_getrandom` from CFileSystemShims.c.
`hasSyscall` selects the preprocessor branch: `true` for
`#if SYS_getrandom > 0`, `false` for the `#else` stub.  `kernel` models the
kernel side of the syscall as a function of the requested length and flags.
The supported branch is a single pass-through: `return syscall(SYS_getrandom,
buffer, length, flags);` — on a kernel failure it returns `-1` with `errno`
set by the kernel and the buffer untouched; otherwise the kernel wrote `bs`
bytes into the front of the buffer and the shim returns their count, with no
retry of a short read.  The stub branch sets `errno = ENOSYS` and returns
`-1`. -/
def atomicfilewrite_getrandom (hasSyscall : Bool)
    (kernel : Nat → Nat → GetrandomOutcome) (buf : List Nat)
    (length flags : Nat) : GetrandomRes :=
  if hasSyscall then
    match kernel length flags with
    | GetrandomOutcome.failure e => ⟨-1, e, buf⟩
    | GetrandomOutcome.bytes bs =>
        ⟨Int.ofNat bs.length, 0, bs ++ buf.drop bs.length⟩
  else ⟨-1, ENOSYS, buf⟩

/-- Number of `getrandom` syscalls the body of `atomicfilewrite_getrandom`
issues, read off the source: the supported branch performs exactly one and
the stub branch performs none. -/
def getrandom_syscall_count (hasSyscall : Bool) : Nat :=
  if hasSyscall then 1 else 0

/-- Two publish attempts racing on the same destination `d`.  Because the
underlying syscall is atomic, any interleaving of the two calls is one of the
two serial orders; this runs the attempt from source `sa` first and the
attempt from source `sb` second, returning both outcomes (the final
filesystem is the one in the second outcome). -/
def racePublish (fs : FS) (sa sb d : String) : RenameOut × RenameOut :=
  let ra := atomicfilewrite_renameat2_noreplace true fs sa d
  let rb := atomicfilewrite_renameat2_noreplace true ra.fs sb d
  (ra, rb)

/-- A kernel behaviour that answers every `getrandom` request with 100 random
bytes — a legal short read for requests longer than 256 bytes. -/
def shortReadKernel : Nat → Nat → GetrandomOutcome :=
  fun _ _ => GetrandomOutcome.bytes (List.replicate 100 7)

theorem fsFind_fsRemove_self (fs : FS) (p : String) :
    fsFind (fsRemove fs p) p = none := by
  induction fs with
  | nil => rfl
  | cons hd tl ih =>
    obtain ⟨a, c⟩ := hd
    by_cases hap : a = p
    · simp [fsRemove, hap, ih]
    · simp [fsRemove, fsFind, hap, ih]

theorem fsFind_fsRemove_ne (fs : FS) (p q : String) (h : q ≠ p) :
    fsFind (fsRemove fs p) q = fsFind fs q := by
  induction fs with
  | nil => rfl
  | cons hd tl ih =>
    obtain ⟨a, c⟩ := hd
    by_cases hap : a = p
    · have hpq : ¬ p = q := fun hq => h hq.symm
      simp [fsRemove, fsFind, hap, hpq, ih]
    · by_cases haq : a = q
      · subst haq
        simp [fsRemove, fsFind, hap]
      · simp [fsRemove, fsFind, hap, haq, ih]

/-- Claim C2: when the destination D already exists with content c and the
source S exists with content cS, the no-replace rename returns -1, delivers
EEXIST through out_errno, and leaves the filesystem unchanged, so D still
holds c and S still holds cS. -/
theorem rename_noreplace_destination_exists (fs : FS) (S D : String)
    (c cS : List Nat) (hD : fsFind fs D = some c)
    (hS : fsFind fs S = some cS) :
    (atomicfilewrite_renameat2_noreplace true fs S D).ret = -1 ∧
    (atomicfilewrite_renameat2_noreplace true fs S D).out_errno = EEXIST ∧
    (atomicfilewrite_renameat2_noreplace true fs S D).fs = fs ∧
    fsFind (atomicfilewrite_renameat2_noreplace true fs S D).fs D = some c ∧
    fsFind (atomicfilewrite_renameat2_noreplace true fs S D).fs S = some cS := by
  simp [atomicfilewrite_renameat2_noreplace, renameat2_noreplace_syscall,
    hD, hS]

/-- Claim C2 witness: a concrete filesystem where the destination d and the
source s both exist; the rename fails with EEXIST and changes nothing. -/
theorem rename_noreplace_destination_exists_witness :
    fsFind [("d", [1]), ("s", [2])] "d" = some [1] ∧
    fsFind [("d", [1]), ("s", [2])] "s" = some [2] ∧
    ((atomicfilewrite_renameat2_noreplace true [("d", [1]), ("s", [2])]
        "s" "d").ret = -1 ∧
     (atomicfilewrite_renameat2_noreplace true [("d", [1]), ("s", [2])]
        "s" "d").out_errno = EEXIST ∧
     (atomicfilewrite_renameat2_noreplace true [("d", [1]), ("s", [2])]
        "s" "d").fs = [("d", [1]), ("s", [2])] ∧
     fsFind (atomicfilewrite_renameat2_noreplace true [("d", [1]), ("s", [2])]
        "s" "d").fs "d" = some [1] ∧
     fsFind (atomicfilewrite_renameat2_noreplace true [("d", [1]), ("s", [2])]
        "s" "d").fs "s" = some [2]) :=
  ⟨by decide, by decide,
   rename_noreplace_destination_exists [("d", [1]), ("s", [2])] "s" "d"
     [1] [2] (by decide) (by decide)⟩

/-- Claim C3: when the destination D does not exist and the source S exists
with content c, the no-replace rename succeeds with out_errno zero, after
which D holds c and S no longer exists. -/
theorem rename_noreplace_destination_absent (fs : FS) (S D : String)
    (c : List Nat) (hD : fsFind fs D = none) (hS : fsFind fs S = some c) :
    (atomicfilewrite_renameat2_noreplace true fs S D).ret = 0 ∧
    (atomicfilewrite_renameat2_noreplace true fs S D).out_errno = 0 ∧
    fsFind (atomicfilewrite_renameat2_noreplace true fs S D).fs D = some c ∧
    fsFind (atomicfilewrite_renameat2_noreplace true fs S D).fs S = none := by
  have hSD : ¬ D = S := by
    intro h
    rw [← h, hD] at hS
    exact Option.noConfusion hS
  simp [atomicfilewrite_renameat2_noreplace, renameat2_noreplace_syscall,
    hD, hS, fsFind, hSD, fsFind_fsRemove_self]

/-- Claim C3 witness: a concrete filesystem where only the source s exists;
the rename succeeds and moves the content to d. -/
theorem rename_noreplace_destination_absent_witness :
    fsFind [("s", [2])] "d" = none ∧
    fsFind [("s", [2])] "s" = some [2] ∧
    ((atomicfilewrite_renameat2_noreplace true [("s", [2])] "s" "d").ret = 0 ∧
     (atomicfilewrite_renameat2_noreplace true [("s", [2])]
        "s" "d").out_errno = 0 ∧
     fsFind (atomicfilewrite_renameat2_noreplace true [("s", [2])]
        "s" "d").fs "d" = some [2] ∧
     fsFind (atomicfilewrite_renameat2_noreplace true [("s", [2])]
        "s" "d").fs "s" = none) :=
  ⟨by decide, by decide,
   rename_noreplace_destination_absent [("s", [2])] "s" "d" [2]
     (by decide) (by decide)⟩

/-- Claim C4: on an architecture without the renameat2 syscall number (the
stub branch of the source), the shim returns -1 with out_errno ENOSYS for
every pair of paths, leaves the filesystem untouched, and issues no
filesystem syscall at all — in particular no check-then-rename fallback. -/
theorem rename_noreplace_unsupported (fs : FS) (f t : String) :
    atomicfilewrite_renameat2_noreplace false fs f t =
      ⟨-1, ENOSYS, fs⟩ ∧
    renameat2_noreplace_ops false f t = [] :=
  ⟨rfl, rfl⟩

/-- Claim C9: on every call, in both architecture branches, out_errno is
written and equals zero exactly when the return value is zero. -/
theorem out_errno_zero_iff_success (hasSyscall : Bool) (fs : FS)
    (f t : String) :
    (atomicfilewrite_renameat2_noreplace hasSyscall fs f t).out_errno = 0 ↔
    (atomicfilewrite_renameat2_noreplace hasSyscall fs f t).ret = 0 := by
  cases hasSyscall with
  | false => simp [atomicfilewrite_renameat2_noreplace, ENOSYS]
  | true =>
    simp only [atomicfilewrite_renameat2_noreplace, renameat2_noreplace_syscall]
    cases hf : fsFind fs f with
    | none => norm_num [ENOENT]
    | some c =>
      cases ht : fsFind fs t with
      | some c2 => norm_num [EEXIST]
      | none => norm_num

/-- Claim C10: the return value of the rename shim is always exactly 0 or -1,
in both architecture branches. -/
theorem rename_noreplace_ret_zero_or_neg_one (hasSyscall : Bool) (fs : FS)
    (f t : String) :
    (atomicfilewrite_renameat2_noreplace hasSyscall fs f t).ret = 0 ∨
    (atomicfilewrite_renameat2_noreplace hasSyscall fs f t).ret = -1 := by
  cases hasSyscall with
  | false => exact Or.inr rfl
  | true =>
    simp only [atomicfilewrite_renameat2_noreplace, renameat2_noreplace_syscall]
    cases hf : fsFind fs f with
    | none => norm_num
    | some c =>
      cases ht : fsFind fs t with
      | some c2 => norm_num
      | none => norm_num

/-- Claim C5: in the supported branch the publish operation is exactly the
single atomic no-replace rename syscall — its observable outcome equals the
spec reference definition written from the "single rename if destination
absent" algorithm, the syscall trace of the body is the one renameat2 call,
and the trace contains neither an existence check nor a plain replacing
rename, in either architecture branch. -/
theorem rename_noreplace_refines_spec (hasSyscall : Bool) (fs : FS)
    (f t : String) :
    publishResultOfShim hasSyscall fs f t =
      spec_AtomicPublisher hasSyscall fs f t ∧
    renameat2_noreplace_ops true f t = [FsOp.renameNoreplace f t] ∧
    FsOp.statExists t ∉ renameat2_noreplace_ops hasSyscall f t ∧
    FsOp.plainRename f t ∉ renameat2_noreplace_ops hasSyscall f t := by
  refine ⟨?_, rfl, ?_, ?_⟩
  · cases hasSyscall with
    | false => rfl
    | true =>
      simp only [publishResultOfShim, spec_AtomicPublisher,
        atomicfilewrite_renameat2_noreplace, renameat2_noreplace_syscall]
      cases hf : fsFind fs f with
      | none => norm_num [ENOENT, EEXIST, ENOSYS]
      | some c =>
        cases ht : fsFind fs t with
        | some c2 => norm_num [EEXIST, ENOSYS]
        | none => norm_num
  · cases hasSyscall <;> simp [renameat2_noreplace_ops]
  · cases hasSyscall <;> simp [renameat2_noreplace_ops]

/-- Claim C6: error codes reach the caller verbatim — whenever the rename
syscall fails, the shim stores exactly the errno of the syscall into
out_errno, and whenever the getrandom kernel call fails with errno e, the
shim returns -1 with errno exactly e, with no translation in either case. -/
theorem errno_preserved_verbatim :
    (∀ (fs : FS) (f t : String),
      (renameat2_noreplace_syscall fs f t).ret = -1 →
      (atomicfilewrite_renameat2_noreplace true fs f t).out_errno =
        (renameat2_noreplace_syscall fs f t).err) ∧
    (∀ (kernel : Nat → Nat → GetrandomOutcome) (buf : List Nat)
       (n flags : Nat) (e : Int),
      kernel n flags = GetrandomOutcome.failure e →
      (atomicfilewrite_getrandom true kernel buf n flags).ret = -1 ∧
      (atomicfilewrite_getrandom true kernel buf n flags).errno = e) := by
  constructor
  · intro fs f t h
    simp [atomicfilewrite_renameat2_noreplace, h]
  · intro kernel buf n flags e h
    simp [atomicfilewrite_getrandom, h]

/-- A kernel behaviour where every getrandom request fails with EINTR
(error number 4). -/
def eintrKernel : Nat → Nat → GetrandomOutcome :=
  fun _ _ => GetrandomOutcome.failure 4

/-- Claim C6 witness: a rename over the empty filesystem fails and the shim
delivers the syscall errno unchanged; a getrandom call against a kernel
failing with EINTR delivers errno 4 unchanged. -/
theorem errno_preserved_verbatim_witness :
    ((renameat2_noreplace_syscall [] "a" "b").ret = -1 ∧
     (atomicfilewrite_renameat2_noreplace true [] "a" "b").out_errno =
       (renameat2_noreplace_syscall [] "a" "b").err) ∧
    (eintrKernel 5 0 = GetrandomOutcome.failure 4 ∧
     (atomicfilewrite_getrandom true eintrKernel [0, 0, 0, 0, 0] 5 0).ret =
       -1 ∧
     (atomicfilewrite_getrandom true eintrKernel [0, 0, 0, 0, 0] 5 0).errno =
       4) :=
  ⟨⟨by decide, errno_preserved_verbatim.1 [] "a" "b" (by decide)⟩,
   ⟨rfl, errno_preserved_verbatim.2 eintrKernel [0, 0, 0, 0, 0] 5 0 4 rfl⟩⟩

/-- Claim C7: on an architecture without the getrandom syscall (the stub
branch of the source), the shim returns -1 with errno ENOSYS for every
request, leaves the caller buffer untouched, never consults any kernel
randomness behaviour, and issues zero getrandom syscalls — so no fallback
generator of any kind runs. -/
theorem getrandom_unsupported (kernel kernel2 : Nat → Nat → GetrandomOutcome)
    (buf : List Nat) (n flags : Nat) :
    atomicfilewrite_getrandom false kernel buf n flags =
      ⟨-1, ENOSYS, buf⟩ ∧
    atomicfilewrite_getrandom false kernel buf n flags =
      atomicfilewrite_getrandom false kernel2 buf n flags ∧
    getrandom_syscall_count false = 0 :=
  ⟨rfl, rfl, rfl⟩

/-- Claim C8: two publish attempts racing on the same absent destination d
from distinct existing sources, serialised in either order by the atomicity
of the syscall: the first call succeeds, the second fails with EEXIST, and
the final content of d is exactly the content of the winning source — one of
the two source contents, never a mixture.  Instantiating sa and sb with
either caller covers both interleavings. -/
theorem race_publish_exactly_one_succeeds (fs : FS) (sa sb d : String)
    (ca cb : List Nat) (hd : fsFind fs d = none)
    (ha : fsFind fs sa = some ca) (hb : fsFind fs sb = some cb)
    (hab : sa ≠ sb) :
    (racePublish fs sa sb d).1.ret = 0 ∧
    (racePublish fs sa sb d).2.ret = -1 ∧
    (racePublish fs sa sb d).2.out_errno = EEXIST ∧
    fsFind (racePublish fs sa sb d).2.fs d = some ca ∧
    (fsFind (racePublish fs sa sb d).2.fs d = some ca ∨
     fsFind (racePublish fs sa sb d).2.fs d = some cb) := by
  have hsbd : sb ≠ d := by
    intro h
    rw [h, hd] at hb
    exact Option.noConfusion hb
  have hdsb : ¬ d = sb := fun h => hsbd h.symm
  have h1 : atomicfilewrite_renameat2_noreplace true fs sa d =
      ⟨0, 0, (d, ca) :: fsRemove fs sa⟩ := by
    simp [atomicfilewrite_renameat2_noreplace, renameat2_noreplace_syscall,
      ha, hd]
  have hfind_sb : fsFind ((d, ca) :: fsRemove fs sa) sb = some cb := by
    rw [fsFind, if_neg hdsb, fsFind_fsRemove_ne fs sa sb (Ne.symm hab)]
    exact hb
  have hfind_d : fsFind ((d, ca) :: fsRemove fs sa) d = some ca := by
    simp [fsFind]
  have h2 : atomicfilewrite_renameat2_noreplace true
      ((d, ca) :: fsRemove fs sa) sb d =
      ⟨-1, EEXIST, (d, ca) :: fsRemove fs sa⟩ := by
    simp [atomicfilewrite_renameat2_noreplace, renameat2_noreplace_syscall,
      hfind_sb, hfind_d]
  simp only [racePublish, h1, h2]
  exact ⟨trivial, trivial, trivial, hfind_d, Or.inl hfind_d⟩

/-- Claim C8 witness: two concrete sources racing on the destination d; the
first attempt wins, the second observes EEXIST, and d holds the content of
the winner. -/
theorem race_publish_witness :
    fsFind [("s1", [1]), ("s2", [2])] "d" = none ∧
    fsFind [("s1", [1]), ("s2", [2])] "s1" = some [1] ∧
    fsFind [("s1", [1]), ("s2", [2])] "s2" = some [2] ∧
    "s1" ≠ "s2" ∧
    ((racePublish [("s1", [1]), ("s2", [2])] "s1" "s2" "d").1.ret = 0 ∧
     (racePublish [("s1", [1]), ("s2", [2])] "s1" "s2" "d").2.ret = -1 ∧
     (racePublish [("s1", [1]), ("s2", [2])] "s1" "s2" "d").2.out_errno =
       EEXIST ∧
     fsFind (racePublish [("s1", [1]), ("s2", [2])] "s1" "s2" "d").2.fs "d" =
       some [1] ∧
     (fsFind (racePublish [("s1", [1]), ("s2", [2])] "s1" "s2" "d").2.fs "d" =
        some [1] ∨
      fsFind (racePublish [("s1", [1]), ("s2", [2])] "s1" "s2" "d").2.fs "d" =
        some [2])) :=
  ⟨by decide, by decide, by decide, by decide,
   race_publish_exactly_one_succeeds [("s1", [1]), ("s2", [2])] "s1" "s2" "d"
     [1] [2] (by decide) (by decide) (by decide) (by decide)⟩

/-- Claim C1 counterexample: against a kernel that answers a 300-byte
request with only 100 bytes — a short read the getrandom syscall is allowed
to produce for requests above 256 bytes — the shim returns 100: a successful
return (not -1) carrying fewer than the requested 300 bytes, so no internal
retry until the full count is reached takes place. -/
theorem getrandom_short_read_counterexample :
    (atomicfilewrite_getrandom true shortReadKernel (List.replicate 300 0)
      300 0).ret = 100 ∧
    (atomicfilewrite_getrandom true shortReadKernel (List.replicate 300 0)
      300 0).ret ≠ -1 ∧
    (atomicfilewrite_getrandom true shortReadKernel (List.replicate 300 0)
      300 0).ret ≠ 300 := by
  refine ⟨?_, by decide, by decide⟩
  decide

/-- Claim C1 amended: atomicfilewrite_getrandom issues a single getrandom
syscall and returns the kernel result verbatim — when the kernel supplies bs
bytes the shim returns their count (which may be fewer than the requested
length), places those bytes at the front of the caller buffer, and performs
no internal retry; completing a short read is left to the caller. -/
theorem getrandom_single_syscall_passthrough
    (kernel : Nat → Nat → GetrandomOutcome) (buf : List Nat)
    (n flags : Nat) (bs : List Nat)
    (h : kernel n flags = GetrandomOutcome.bytes bs) :
    (atomicfilewrite_getrandom true kernel buf n flags).ret =
      Int.ofNat bs.length ∧
    (atomicfilewrite_getrandom true kernel buf n flags).buffer =
      bs ++ buf.drop bs.length ∧
    (atomicfilewrite_getrandom true kernel buf n flags).buffer.take
      bs.length = bs ∧
    getrandom_syscall_count true = 1 := by
  refine ⟨?_, ?_, ?_, rfl⟩ <;>
    simp [atomicfilewrite_getrandom, h, List.take_left]

/-- Claim C1 amended witness: the short-read kernel supplies 100 bytes for a
300-byte request and the shim passes exactly those 100 bytes through. -/
theorem getrandom_single_syscall_passthrough_witness :
    shortReadKernel 300 0 =
      GetrandomOutcome.bytes (List.replicate 100 7) ∧
    ((atomicfilewrite_getrandom true shortReadKernel (List.replicate 300 0)
        300 0).ret = Int.ofNat (List.replicate 100 7).length ∧
     (atomicfilewrite_getrandom true shortReadKernel (List.replicate 300 0)
        300 0).buffer = List.replicate 100 7 ++
          (List.replicate 300 0).drop (List.replicate 100 7).length ∧
     (atomicfilewrite_getrandom true shortReadKernel (List.replicate 300 0)
        300 0).buffer.take (List.replicate 100 7).length =
          List.replicate 100 7 ∧
     getrandom_syscall_count true = 1) :=
  ⟨rfl, getrandom_single_syscall_passthrough shortReadKernel
    (List.replicate 300 0) 300 0 (List.replicate 100 7) rfl⟩
